import Mathlib

/-!
# Verification of the GeoShred synthesis engine (src/services/AudioEngine.ts)

Shallow embedding of the audio engine as a pure state machine.  Web Audio
node-graph mutations (connect, stop, disconnect, gain ramps, parameter
retargeting) are recorded as explicit `AudioAction` values; the engine state
carries the active-notes table (a JS `Map<number, ActiveNote>`, modelled as an
association list with Map semantics: `set` replaces in place or appends,
`delete` removes the entry), the active preset and the shared effect-parameter
targets.  JS numbers are modelled as exact rationals.  The `setTimeout`-based
voice teardown of `noteOff` is modelled as an explicitly returned
`ScheduledTeardown` value together with `runTeardown`, the callback body.
-/

namespace GeoShred

/-- The `Waveform` enum of src/unnamed/part_000 (types.ts): four tonal
sub-types plus the synthesis families. -/
inductive Waveform : Type
  | sine
  | square
  | sawtooth
  | triangle
  | physicalString
  | piano
  | guitar
  | slide
  | drums
deriving DecidableEq, Repr

/-- The `InstrumentPreset` interface: all numeric fields as exact rationals. -/
structure InstrumentPreset : Type where
  name : String
  waveform : Waveform
  filterCutoff : ℚ
  resonance : ℚ
  attack : ℚ
  decay : ℚ
  sustain : ℚ
  release : ℚ
  detune : ℚ
  vibratoRate : ℚ
  vibratoDepth : ℚ
  distortion : ℚ
  delayFeedback : ℚ
  delayTime : ℚ
  reverbWet : ℚ
  feedbackAmount : ℚ
  stringDamping : ℚ
deriving DecidableEq, Repr

/-- The string-resonator fragment returned by `createStringSource`: a noise
burst of `burstLength` samples feeding a delay line of `delayTime` seconds,
closed through a low-pass at `lpCutoff` Hz and a gain of `feedbackGain`. -/
structure StringSource : Type where
  burstLength : ℕ
  delayTime : ℚ
  feedbackGain : ℚ
  lpCutoff : ℚ
deriving DecidableEq, Repr

/-- `createStringSource(freq, feedback, damping)`: period `1/freq` seconds,
burst of `max(2, floor(sampleRate * period))` random samples, delay line of one
period, feedback gain and low-pass cutoff as passed.  The returned node is the
`DelayNode` of the loop. -/
def createStringSource (sampleRate freq feedback damping : ℚ) : StringSource :=
  let period := 1 / freq
  { burstLength := Nat.max 2 (Int.toNat (Rat.floor (sampleRate * period)))
    delayTime := period
    feedbackGain := feedback
    lpCutoff := damping }

/-- The node returned by `createDrumSource`: row 0 returns the kick
`OscillatorNode` itself (150 Hz sweep, self-stopping); row 1 the snare
high-pass `BiquadFilterNode`; any other row the hat high-pass filter. -/
inductive DrumNode : Type
  | kick
  | snare
  | hat
deriving DecidableEq, Repr

/-- `createDrumSource(row, freq)` dispatches on the row only. -/
def createDrumSource (row : ℕ) : DrumNode :=
  if row = 0 then DrumNode.kick else if row = 1 then DrumNode.snare else DrumNode.hat

/-- The source node stored in an `ActiveNote.oscillator` field: a plain
`OscillatorNode`, the `DelayNode` of a string resonator, the `GainNode` mixing
the three piano partials, or a drum node. -/
inductive Source : Type
  | oscNode (oscType : Waveform) (freq : ℚ)
  | stringRes (sp : StringSource)
  | pianoMix (f1 f2 f3 : ℚ)
  | drum (d : DrumNode)
deriving DecidableEq, Repr

/-- `instanceof OscillatorNode` on the stored source node.  The kick drum
source is the oscillator node itself, so it tests true. -/
def Source.isOscNode : Source → Bool
  | Source.oscNode _ _ => true
  | Source.drum DrumNode.kick => true
  | _ => false

/-- `instanceof DelayNode` on the stored source node: only the string
resonator returns its delay node. -/
def Source.isDelayNode : Source → Bool
  | Source.stringRes _ => true
  | _ => false

/-- The `ActiveNote` value stored in the `activeNotes` map by `noteOn`:
`{ id, frequency, node: gain, oscillator: source }`.  The optional `vibrato`
field of the `ActiveNote` interface (an LFO rate/gain pair) is never populated
by the engine. -/
structure ActiveNote : Type where
  id : ℕ
  frequency : ℚ
  oscillator : Source
  vibrato : Option (ℚ × ℚ)
deriving DecidableEq, Repr

/-- `Map.get` on the association-list model of `Map<number, ActiveNote>`. -/
def mapGet : List (ℕ × ActiveNote) → ℕ → Option ActiveNote
  | [], _ => none
  | (k, v) :: rest, k0 => if k = k0 then some v else mapGet rest k0

/-- `Map.set`: replace the entry in place, else append. -/
def mapSet : List (ℕ × ActiveNote) → ℕ → ActiveNote → List (ℕ × ActiveNote)
  | [], k0, v0 => [(k0, v0)]
  | (k, v) :: rest, k0, v0 =>
      if k = k0 then (k0, v0) :: rest else (k, v) :: mapSet rest k0 v0

/-- `Map.delete`: drop the entry with the given key. -/
def mapDelete : List (ℕ × ActiveNote) → ℕ → List (ℕ × ActiveNote)
  | [], _ => []
  | (k, v) :: rest, k0 => if k = k0 then rest else (k, v) :: mapDelete rest k0

/-- Number of entries stored under a key (a real JS `Map` always has 0 or 1). -/
def countKey (m : List (ℕ × ActiveNote)) (k : ℕ) : ℕ :=
  (m.filter (fun p => p.1 = k)).length

/-- Observable Web Audio graph mutations issued by the engine, tagged with the
note id owning the touched node. -/
inductive AudioAction : Type
  | gainSetValue (noteId : ℕ) (value time : ℚ)
  | gainLinearRamp (noteId : ℕ) (value time : ℚ)
  | gainExpRamp (noteId : ℕ) (value time : ℚ)
  | gainCancelScheduled (noteId : ℕ) (time : ℚ)
  | gainSetCurrent (noteId : ℕ) (time : ℚ)
  | connectChain (noteId : ℕ)
  | sourceStop (noteId : ℕ)
  | sourceDisconnect (noteId : ℕ)
  | gainDisconnect (noteId : ℕ)
  | oscRetune (noteId : ℕ) (freq tc : ℚ)
  | delayRetune (noteId : ℕ) (delayTime tc : ℚ)
  | filterRetarget (freq tc : ℚ)
deriving DecidableEq, Repr

/-- An action that tears a voice out of the graph: stopping its source or
disconnecting its source/gain nodes. -/
def AudioAction.isTeardown : AudioAction → Bool
  | AudioAction.sourceStop _ => true
  | AudioAction.sourceDisconnect _ => true
  | AudioAction.gainDisconnect _ => true
  | _ => false

/-- A gain-envelope action on a voice's gain node (a release ramp is one). -/
def AudioAction.isGainRamp : AudioAction → Bool
  | AudioAction.gainSetValue _ _ _ => true
  | AudioAction.gainLinearRamp _ _ _ => true
  | AudioAction.gainExpRamp _ _ _ => true
  | AudioAction.gainCancelScheduled _ _ => true
  | AudioAction.gainSetCurrent _ _ => true
  | _ => false

/-- The `setTimeout` callback registered by `noteOff`: fires `delayMs`
milliseconds after the call, capturing the note to tear down. -/
structure ScheduledTeardown : Type where
  delayMs : ℚ
  noteId : ℕ
  note : ActiveNote
deriving DecidableEq, Repr

/-- The engine's mutable state: initialization flag (`ctx` non-null), audio
clock, sample rate, active-notes table, active preset, and the last targets
set on the shared effect parameters. -/
structure EngineState : Type where
  initialized : Bool
  sampleRate : ℚ
  currentTime : ℚ
  activeNotes : List (ℕ × ActiveNote)
  preset : InstrumentPreset
  filterFreqTarget : ℚ
  filterQTarget : ℚ
  delayTimeTarget : ℚ
  delayFeedbackTarget : ℚ
  distortionAmount : ℚ
  masterGain : ℚ
deriving DecidableEq, Repr

/-- The default `Pro Shredder` preset of the engine's constructor. -/
def defaultPreset : InstrumentPreset :=
  { name := "Pro Shredder"
    waveform := Waveform.guitar
    filterCutoff := 4000
    resonance := 3
    attack := 1/100
    decay := 3/10
    sustain := 2/5
    release := 4/5
    detune := 0
    vibratoRate := 5
    vibratoDepth := 1/10
    distortion := 1/2
    delayFeedback := 2/5
    delayTime := 3/10
    reverbWet := 3/10
    feedbackAmount := 1/5
    stringDamping := 1/2 }

/-- `new AudioEngine()`: context not yet created, empty note table. -/
def initialState : EngineState :=
  { initialized := false
    sampleRate := 44100
    currentTime := 0
    activeNotes := []
    preset := defaultPreset
    filterFreqTarget := 350
    filterQTarget := 1
    delayTimeTarget := 0
    delayFeedbackTarget := 1
    distortionAmount := 0
    masterGain := 1 }

/-- `init()`: on first call creates the context and effects chain, regenerates
the distortion curve from the preset and sets the master gain to 0.5. -/
def init (s : EngineState) : EngineState :=
  if s.initialized then s
  else { s with
          initialized := true
          distortionAmount := s.preset.distortion
          masterGain := 1/2 }

/-- Number of samples of the distortion transfer curve. -/
def nSamples : ℕ := 44100

/-- The soft-knee saturation function `(p + k) * x / (p + k * |x|)`; `p`
stands for the float constant `Math.PI`. -/
def distortionF (p k x : ℚ) : ℚ :=
  (p + k) * x / (p + k * |x|)

/-- `updateDistortionCurve(amount)`: sample `i` of the curve is taken at the
normalized input `x = (i * 2) / n_samples - 1` with `k = amount * 10`. -/
def updateDistortionCurve (p amount : ℚ) (i : ℕ) : ℚ :=
  let k := amount * 10
  let x := (i * 2 : ℚ) / nSamples - 1
  (p + k) * x / (p + k * |x|)

/-- The source node built by `noteOn`'s switch on the active preset's
waveform family. -/
def noteOnSource (p : InstrumentPreset) (sampleRate frequency : ℚ) (row : ℕ) : Source :=
  match p.waveform with
  | Waveform.piano => Source.pianoMix frequency (frequency * 2) (frequency * 3)
  | Waveform.guitar =>
      Source.stringRes
        (createStringSource sampleRate frequency (985/1000 - p.stringDamping * (5/100)) 8000)
  | Waveform.physicalString =>
      Source.stringRes
        (createStringSource sampleRate frequency (985/1000 - p.stringDamping * (5/100)) 8000)
  | Waveform.slide =>
      Source.stringRes (createStringSource sampleRate frequency (995/1000) 12000)
  | Waveform.drums => Source.drum (createDrumSource row)
  | w => Source.oscNode w frequency

/-- The attack-envelope schedule `noteOn` issues on the fresh gain node, per
waveform family. -/
def noteOnGainActions (p : InstrumentPreset) (id : ℕ) (now : ℚ) : List AudioAction :=
  match p.waveform with
  | Waveform.piano =>
      [AudioAction.gainSetValue id 0 now,
       AudioAction.gainLinearRamp id (6/10) (now + 5/1000),
       AudioAction.gainExpRamp id (1/100) (now + 2)]
  | Waveform.guitar =>
      [AudioAction.gainSetValue id 0 now,
       AudioAction.gainLinearRamp id (8/10) (now + p.attack)]
  | Waveform.physicalString =>
      [AudioAction.gainSetValue id 0 now,
       AudioAction.gainLinearRamp id (8/10) (now + p.attack)]
  | Waveform.slide =>
      [AudioAction.gainSetValue id 0 now,
       AudioAction.gainLinearRamp id (9/10) (now + 1/10)]
  | Waveform.drums =>
      [AudioAction.gainSetValue id 1 now,
       AudioAction.gainExpRamp id (1/1000) (now + 3/10)]
  | _ =>
      [AudioAction.gainSetValue id 0 now,
       AudioAction.gainLinearRamp id (8/10) (now + p.attack)]

/-- `noteOn(id, frequency, row)`: initializes the engine, builds the source
for the current waveform family, schedules the attack envelope, wires
source → gain → distortion, and stores the voice with `Map.set` — the prior
entry for `id`, if any, is overwritten without any stop/disconnect. -/
def noteOn (s0 : EngineState) (id : ℕ) (frequency : ℚ) (row : ℕ) :
    EngineState × List AudioAction :=
  let s := init s0
  let now := s.currentTime
  let source := noteOnSource s.preset s.sampleRate frequency row
  let note : ActiveNote :=
    { id := id, frequency := frequency, oscillator := source, vibrato := none }
  ({ s with activeNotes := mapSet s.activeNotes id note },
   noteOnGainActions s.preset id now ++ [AudioAction.connectChain id])

/-- `noteUpdate(id, frequency, modX, modY)`: silent no-op on an unknown id or
an uninitialized context; otherwise retunes the source (oscillator frequency,
or delay-line length `1/frequency`, with a 30 ms smoothing constant) and
retargets the shared filter cutoff to
`min(18000, max(20, filterCutoff + modY * 4000))` with a 50 ms constant. -/
def noteUpdate (s : EngineState) (id : ℕ) (frequency modX modY : ℚ) :
    EngineState × List AudioAction :=
  match mapGet s.activeNotes id with
  | none => (s, [])
  | some note =>
      if s.initialized then
        let retune : List AudioAction :=
          if note.oscillator.isOscNode then
            [AudioAction.oscRetune id frequency (3/100)]
          else if note.oscillator.isDelayNode then
            [AudioAction.delayRetune id (1/frequency) (3/100)]
          else []
        let expressiveCutoff := s.preset.filterCutoff + modY * 4000
        let target := min 18000 (max 20 expressiveCutoff)
        ({ s with filterFreqTarget := target },
         retune ++ [AudioAction.filterRetarget target (1/20)])
      else (s, [])

/-- `noteOff(id)`: silent no-op on an unknown id or uninitialized context.
Under a drums preset the entry is deleted immediately with no further action.
Otherwise it cancels pending gain ramps, snapshots the gain, ramps
exponentially to 0.001 over the preset's release time, and registers a
`setTimeout` teardown at `release * 1000 + 100` milliseconds. -/
def noteOff (s : EngineState) (id : ℕ) :
    EngineState × List AudioAction × Option ScheduledTeardown :=
  match mapGet s.activeNotes id with
  | none => (s, [], none)
  | some note =>
      if s.initialized then
        if s.preset.waveform = Waveform.drums then
          ({ s with activeNotes := mapDelete s.activeNotes id }, [], none)
        else
          let releaseTime := s.currentTime + s.preset.release
          (s,
           [AudioAction.gainCancelScheduled id s.currentTime,
            AudioAction.gainSetCurrent id s.currentTime,
            AudioAction.gainExpRamp id (1/1000) releaseTime],
           some { delayMs := s.preset.release * 1000 + 100, noteId := id, note := note })
      else (s, [], none)

/-- The body of the teardown callback: stop the source if it is an
`OscillatorNode`, disconnect source and gain, delete the table entry. -/
def runTeardown (s : EngineState) (td : ScheduledTeardown) :
    EngineState × List AudioAction :=
  ({ s with activeNotes := mapDelete s.activeNotes td.noteId },
   (if td.note.oscillator.isOscNode then [AudioAction.sourceStop td.noteId] else [])
     ++ [AudioAction.sourceDisconnect td.noteId, AudioAction.gainDisconnect td.noteId])

/-- A `Partial<InstrumentPreset>` argument to `updatePreset`: absent fields
are `none`. -/
structure PresetPatch : Type where
  name : Option String
  waveform : Option Waveform
  filterCutoff : Option ℚ
  resonance : Option ℚ
  attack : Option ℚ
  decay : Option ℚ
  sustain : Option ℚ
  release : Option ℚ
  detune : Option ℚ
  vibratoRate : Option ℚ
  vibratoDepth : Option ℚ
  distortion : Option ℚ
  delayFeedback : Option ℚ
  delayTime : Option ℚ
  reverbWet : Option ℚ
  feedbackAmount : Option ℚ
  stringDamping : Option ℚ
deriving DecidableEq, Repr

/-- The patch with every field absent. -/
def emptyPatch : PresetPatch :=
  { name := none, waveform := none, filterCutoff := none, resonance := none
    attack := none, decay := none, sustain := none, release := none
    detune := none, vibratoRate := none, vibratoDepth := none, distortion := none
    delayFeedback := none, delayTime := none, reverbWet := none
    feedbackAmount := none, stringDamping := none }

/-- The spread merge `{ ...this.preset, ...newPreset }`. -/
def mergePreset (p : InstrumentPreset) (q : PresetPatch) : InstrumentPreset :=
  { name := q.name.getD p.name
    waveform := q.waveform.getD p.waveform
    filterCutoff := q.filterCutoff.getD p.filterCutoff
    resonance := q.resonance.getD p.resonance
    attack := q.attack.getD p.attack
    decay := q.decay.getD p.decay
    sustain := q.sustain.getD p.sustain
    release := q.release.getD p.release
    detune := q.detune.getD p.detune
    vibratoRate := q.vibratoRate.getD p.vibratoRate
    vibratoDepth := q.vibratoDepth.getD p.vibratoDepth
    distortion := q.distortion.getD p.distortion
    delayFeedback := q.delayFeedback.getD p.delayFeedback
    delayTime := q.delayTime.getD p.delayTime
    reverbWet := q.reverbWet.getD p.reverbWet
    feedbackAmount := q.feedbackAmount.getD p.feedbackAmount
    stringDamping := q.stringDamping.getD p.stringDamping }

/-- `updatePreset(newPreset)`: merges the patch into the active preset; when
the context exists it also retargets the shared filter, delay and distortion
parameters from the merged preset. -/
def updatePreset (s : EngineState) (q : PresetPatch) : EngineState :=
  let merged := mergePreset s.preset q
  if s.initialized then
    { s with
        preset := merged
        filterFreqTarget := merged.filterCutoff
        filterQTarget := merged.resonance
        delayTimeTarget := merged.delayTime
        delayFeedbackTarget := merged.delayFeedback
        distortionAmount := merged.distortion }
  else { s with preset := merged }

/-- A decoded audio buffer (only its length is relevant here). -/
structure AudioBuffer : Type where
  length : ℕ
deriving DecidableEq, Repr

/-- The `Loop` value produced by `stopRecording`. -/
structure Loop : Type where
  buffer : AudioBuffer
  isPlaying : Bool
deriving DecidableEq, Repr

/-- Outcome of the promise returned by `stopRecording`: it either resolves
with a value or stays pending forever (it is never rejected: the executor
calls only `resolve`). -/
inductive PromiseOutcome (α : Type) : Type
  | resolved (value : α)
  | pending
deriving DecidableEq, Repr

/-- `stopRecording()`.  `hasRecorder` models `this.recorder && this.ctx`
being non-null; `decoded` models the result of `decodeAudioData` on the
captured blob (`none` = the decode promise rejects).  Without a recorder the
executor resolves `null` at once.  With one, `resolve` is only reached after
the `await` of `decodeAudioData` inside the async `onstop` handler succeeds;
when the decode rejects, the rejection escapes the handler, `resolve` is
never called, and the outer promise stays pending. -/
def stopRecording (hasRecorder : Bool) (decoded : Option AudioBuffer) :
    PromiseOutcome (Option Loop) :=
  if hasRecorder = false then PromiseOutcome.resolved none
  else
    match decoded with
    | some buf => PromiseOutcome.resolved (some { buffer := buf, isPlaying := false })
    | none => PromiseOutcome.pending

/-- State after `noteOn(7, 440)` from a fresh engine (guitar preset). -/
def guitarVoiceState : EngineState := (noteOn initialState 7 440 0).1

/-- The voice stored for id 7 by `noteOn(7, 440)` under the default guitar
preset. -/
def guitarVoice : ActiveNote :=
  { id := 7, frequency := 440,
    oscillator := noteOnSource defaultPreset 44100 440 0, vibrato := none }

/-- The default preset with the waveform family switched to drums. -/
def drumsPreset : InstrumentPreset := { defaultPreset with waveform := Waveform.drums }

/-- State after `noteOn(7, 440, 0)` from a fresh engine under a drums
preset. -/
def drumsVoiceState : EngineState :=
  (noteOn { initialState with preset := drumsPreset } 7 440 0).1

/-- The kick voice stored for id 7 under the drums preset. -/
def drumVoice : ActiveNote :=
  { id := 7, frequency := 440, oscillator := Source.drum DrumNode.kick, vibrato := none }

/-- A sine preset with nonzero detune (100 cents) and nonzero vibrato depth
(the default 0.1). -/
def sineVibPreset : InstrumentPreset :=
  { defaultPreset with waveform := Waveform.sine, detune := 100 }

/-- A fresh engine carrying `sineVibPreset`. -/
def sineVibState : EngineState := { initialState with preset := sineVibPreset }

/-- State after `noteOn(3, 330)` under the sine preset: a tonal oscillator
voice is active. -/
def sineVoiceState : EngineState := (noteOn sineVibState 3 330 0).1

/-- The tonal oscillator voice stored for id 3 under the sine preset. -/
def sineVoice : ActiveNote :=
  { id := 3, frequency := 330, oscillator := Source.oscNode Waveform.sine 330,
    vibrato := none }

/-- The sine-voice state after `updatePreset({waveform: drums})`: the
oscillator voice for id 3 was created under sine, the active family is now
drums. -/
def sineSwitchedState : EngineState :=
  updatePreset sineVoiceState { emptyPatch with waveform := some Waveform.drums }

section MapLemmas

/-- `init` leaves the preset untouched. -/
theorem init_preset (s : EngineState) : (init s).preset = s.preset := by
  unfold init
  split <;> rfl

/-- `init` leaves the active-notes table untouched. -/
theorem init_activeNotes (s : EngineState) : (init s).activeNotes = s.activeNotes := by
  unfold init
  split <;> rfl

/-- `init` leaves the sample rate untouched. -/
theorem init_sampleRate (s : EngineState) : (init s).sampleRate = s.sampleRate := by
  unfold init
  split <;> rfl

/-- `init` leaves the clock untouched. -/
theorem init_currentTime (s : EngineState) : (init s).currentTime = s.currentTime := by
  unfold init
  split <;> rfl

/-- Getting the key just set returns the new value. -/
theorem mapGet_mapSet_self (m : List (ℕ × ActiveNote)) (k : ℕ) (v : ActiveNote) :
    mapGet (mapSet m k v) k = some v := by
  induction m with
  | nil => simp [mapSet, mapGet]
  | cons p rest ih =>
      obtain ⟨k1, v1⟩ := p
      by_cases h : k1 = k
      · simp [mapSet, mapGet, h]
      · simp [mapSet, mapGet, h, ih]

/-- Unfolding `countKey` over a cons cell. -/
theorem countKey_cons (k1 : ℕ) (v1 : ActiveNote) (rest : List (ℕ × ActiveNote)) (k : ℕ) :
    countKey ((k1, v1) :: rest) k = (if k1 = k then 1 else 0) + countKey rest k := by
  by_cases h : k1 = k
  · simp [countKey, List.filter_cons, h, Nat.add_comm]
  · simp [countKey, List.filter_cons, h]

/-- A key counted zero times cannot be found. -/
theorem mapGet_eq_none_of_countKey_zero (m : List (ℕ × ActiveNote)) (k : ℕ)
    (h : countKey m k = 0) : mapGet m k = none := by
  induction m with
  | nil => rfl
  | cons p rest ih =>
      obtain ⟨k1, v1⟩ := p
      rw [countKey_cons] at h
      by_cases hk : k1 = k
      · rw [if_pos hk] at h
        omega
      · rw [if_neg hk] at h
        simpa [mapGet, hk] using ih (by omega)

/-- `Map.set` on a table holding the key at most once yields exactly one
entry for it. -/
theorem countKey_mapSet (m : List (ℕ × ActiveNote)) (k : ℕ) (v : ActiveNote)
    (h : countKey m k ≤ 1) : countKey (mapSet m k v) k = 1 := by
  induction m with
  | nil => simp [mapSet, countKey, List.filter]
  | cons p rest ih =>
      obtain ⟨k1, v1⟩ := p
      rw [countKey_cons] at h
      by_cases hk : k1 = k
      · rw [if_pos hk] at h
        have hr : countKey rest k = 0 := by omega
        simp [mapSet, hk, countKey_cons, hr]
      · rw [if_neg hk] at h
        have := ih (by omega)
        simp [mapSet, hk, countKey_cons, this]

/-- Deleting a key held at most once removes it from the table. -/
theorem mapGet_mapDelete_self (m : List (ℕ × ActiveNote)) (k : ℕ)
    (h : countKey m k ≤ 1) : mapGet (mapDelete m k) k = none := by
  induction m with
  | nil => rfl
  | cons p rest ih =>
      obtain ⟨k1, v1⟩ := p
      rw [countKey_cons] at h
      by_cases hk : k1 = k
      · rw [if_pos hk] at h
        have hr : countKey rest k = 0 := by omega
        simpa [mapDelete, hk] using mapGet_eq_none_of_countKey_zero rest k hr
      · rw [if_neg hk] at h
        simpa [mapDelete, mapGet, hk] using ih (by omega)

/-- `noteOn` issues only envelope and wiring actions, never a stop or a
disconnect: replacing a voice does not retire the one it replaces. -/
theorem noteOn_actions_no_teardown (s : EngineState) (id : ℕ) (f : ℚ) (row : ℕ) :
    ((noteOn s id f row).2).filter AudioAction.isTeardown = [] := by
  unfold noteOn
  rcases hw : (init s).preset.waveform <;>
    simp [noteOnGainActions, hw, AudioAction.isTeardown]

/-- The voice `noteOn` stores for its id. -/
theorem noteOn_mapGet (s : EngineState) (id : ℕ) (f : ℚ) (row : ℕ) :
    mapGet (noteOn s id f row).1.activeNotes id =
      some { id := id, frequency := f,
             oscillator := noteOnSource (init s).preset (init s).sampleRate f row,
             vibrato := none } := by
  simp [noteOn, mapGet_mapSet_self]

/-- The table after `noteOn` is a `Map.set` of the old table. -/
theorem noteOn_activeNotes (s : EngineState) (id : ℕ) (f : ℚ) (row : ℕ) :
    (noteOn s id f row).1.activeNotes =
      mapSet (init s).activeNotes id
        { id := id, frequency := f,
          oscillator := noteOnSource (init s).preset (init s).sampleRate f row,
          vibrato := none } := rfl

/-- Unfolding `noteOff` on a known id under a non-drums preset. -/
theorem noteOff_eq_release (s : EngineState) (id : ℕ) (note : ActiveNote)
    (hinit : s.initialized = true)
    (hn : mapGet s.activeNotes id = some note)
    (hw : ¬ s.preset.waveform = Waveform.drums) :
    noteOff s id =
      (s,
       [AudioAction.gainCancelScheduled id s.currentTime,
        AudioAction.gainSetCurrent id s.currentTime,
        AudioAction.gainExpRamp id (1/1000) (s.currentTime + s.preset.release)],
       some { delayMs := s.preset.release * 1000 + 100, noteId := id, note := note }) := by
  unfold noteOff
  rw [hn]
  simp [hinit, hw]

/-- Unfolding `noteOff` on a known id under a drums preset. -/
theorem noteOff_eq_drums (s : EngineState) (id : ℕ) (note : ActiveNote)
    (hinit : s.initialized = true)
    (hn : mapGet s.activeNotes id = some note)
    (hw : s.preset.waveform = Waveform.drums) :
    noteOff s id = ({ s with activeNotes := mapDelete s.activeNotes id }, [], none) := by
  unfold noteOff
  rw [hn]
  simp [hinit, hw]

/-- Unfolding `noteUpdate` on a known id of an initialized engine. -/
theorem noteUpdate_eq (s : EngineState) (id : ℕ) (note : ActiveNote) (f mx my : ℚ)
    (hinit : s.initialized = true)
    (hn : mapGet s.activeNotes id = some note) :
    noteUpdate s id f mx my =
      ({ s with filterFreqTarget := min 18000 (max 20 (s.preset.filterCutoff + my * 4000)) },
       (if note.oscillator.isOscNode then [AudioAction.oscRetune id f (3/100)]
        else if note.oscillator.isDelayNode then [AudioAction.delayRetune id (1/f) (3/100)]
        else []) ++
       [AudioAction.filterRetarget
          (min 18000 (max 20 (s.preset.filterCutoff + my * 4000))) (1/20)]) := by
  unfold noteUpdate
  rw [hn]
  simp [hinit]

end MapLemmas

/-- C1: for every damping `d ∈ [0,1]`, the string resonator built by `noteOn`
has feedback gain exactly `0.985 - 0.05*d` for the guitar/string families and
exactly `0.995` for the slide family, and in every case the gain is strictly
below `1`. -/
theorem noteOn_string_feedback (s : EngineState) (id row : ℕ) (f : ℚ)
    (hd0 : 0 ≤ s.preset.stringDamping) (hd1 : s.preset.stringDamping ≤ 1) :
    ((s.preset.waveform = Waveform.guitar ∨ s.preset.waveform = Waveform.physicalString) →
      ∃ sp : StringSource,
        mapGet (noteOn s id f row).1.activeNotes id =
          some { id := id, frequency := f, oscillator := Source.stringRes sp,
                 vibrato := none } ∧
        sp.feedbackGain = 985/1000 - (5/100) * s.preset.stringDamping ∧
        sp.feedbackGain < 1) ∧
    (s.preset.waveform = Waveform.slide →
      ∃ sp : StringSource,
        mapGet (noteOn s id f row).1.activeNotes id =
          some { id := id, frequency := f, oscillator := Source.stringRes sp,
                 vibrato := none } ∧
        sp.feedbackGain = 995/1000 ∧
        sp.feedbackGain < 1) := by
  have hmg := noteOn_mapGet s id f row
  rw [init_preset, init_sampleRate] at hmg
  constructor
  · intro hw
    refine ⟨createStringSource s.sampleRate f
        (985/1000 - s.preset.stringDamping * (5/100)) 8000, ?_, ?_, ?_⟩
    · rw [hmg]
      rcases hw with h | h <;> simp [noteOnSource, h]
    · simp [createStringSource]
      ring
    · simp only [createStringSource]
      have h5 : (0:ℚ) ≤ s.preset.stringDamping * (5/100) :=
        mul_nonneg hd0 (by norm_num)
      linarith
  · intro hw
    refine ⟨createStringSource s.sampleRate f (995/1000) 12000, ?_, ?_, ?_⟩
    · rw [hmg]
      simp [noteOnSource, hw]
    · rfl
    · norm_num [createStringSource]

/-- C1 witness: a fresh engine (guitar preset, damping 0.5) stores a
resonator with gain `0.985 - 0.05 * 0.5 < 1` on `noteOn(1, 440)`. -/
theorem noteOn_string_feedback_witness :
    ∃ sp : StringSource,
      mapGet (noteOn initialState 1 440 0).1.activeNotes 1 =
        some { id := 1, frequency := 440, oscillator := Source.stringRes sp,
               vibrato := none } ∧
      sp.feedbackGain = 985/1000 - (5/100) * initialState.preset.stringDamping ∧
      sp.feedbackGain < 1 :=
  (noteOn_string_feedback initialState 1 0 440
      (by norm_num [initialState, defaultPreset])
      (by norm_num [initialState, defaultPreset])).1 (Or.inl rfl)

/-- C2: for every drive `a ∈ [0,1]`, the curve computed by
`updateDistortionCurve` realizes `f(x) = (p + k)x / (p + k|x|)` with
`k = 10a` at each sampled normalized input `x = (i*2)/n - 1`, and `f` is
odd-symmetric with `f(0) = 0`. -/
theorem updateDistortionCurve_realizes_soft_knee (p a : ℚ) (h0 : 0 ≤ a) (h1 : a ≤ 1) :
    (∀ i : ℕ, updateDistortionCurve p a i
        = distortionF p (10 * a) ((i * 2 : ℚ) / nSamples - 1)) ∧
    (∀ x : ℚ, distortionF p (10 * a) (-x) = - distortionF p (10 * a) x) ∧
    distortionF p (10 * a) 0 = 0 := by
  refine ⟨?_, ?_, ?_⟩
  · intro i
    simp only [updateDistortionCurve, distortionF]
    rw [mul_comm a 10]
  · intro x
    simp only [distortionF]
    rw [abs_neg, mul_neg, neg_div]
  · simp [distortionF]

/-- C2 witness: at drive 1/2 (and p = 3) the curve function vanishes at 0. -/
theorem updateDistortionCurve_realizes_soft_knee_witness :
    distortionF 3 (10 * (1/2)) 0 = 0 :=
  (updateDistortionCurve_realizes_soft_knee 3 (1/2) (by norm_num) (by norm_num)).2.2

/-- C3 counterexample: after `noteOn(1, 440)` a voice for id 1 exists, yet the
immediately following `noteOn(1, 550)` issues no stop and no disconnect — the
prior voice is not retired, contradicting the claim's retirement clause. -/
theorem noteOn_no_retirement_counterexample :
    (mapGet (noteOn initialState 1 440 0).1.activeNotes 1).isSome = true ∧
    ((noteOn (noteOn initialState 1 440 0).1 1 550 0).2).filter
        AudioAction.isTeardown = [] :=
  ⟨rfl, rfl⟩

/-- C3 amended: `noteOn(id, f)` then `noteOn(id, f2)` leaves exactly one
table entry for `id`, tuned to `f2`; the prior voice is overwritten without
being retired — no stop and no disconnect is issued for it, so its source
node leaks, still connected to the graph. -/
theorem noteOn_twice_single_voice (s : EngineState) (id row1 row2 : ℕ) (f f2 : ℚ)
    (hk : countKey s.activeNotes id ≤ 1) :
    (∃ note : ActiveNote,
      mapGet (noteOn (noteOn s id f row1).1 id f2 row2).1.activeNotes id = some note ∧
      note.frequency = f2) ∧
    countKey (noteOn (noteOn s id f row1).1 id f2 row2).1.activeNotes id = 1 ∧
    ((noteOn (noteOn s id f row1).1 id f2 row2).2).filter AudioAction.isTeardown = [] := by
  have hc1 : countKey (noteOn s id f row1).1.activeNotes id = 1 := by
    rw [noteOn_activeNotes, init_activeNotes]
    exact countKey_mapSet _ _ _ hk
  refine ⟨⟨_, noteOn_mapGet _ id f2 row2, rfl⟩, ?_, noteOn_actions_no_teardown _ id f2 row2⟩
  rw [noteOn_activeNotes, init_activeNotes]
  exact countKey_mapSet _ _ _ hc1.le

/-- C3 amended witness: concrete double `noteOn` on id 1 from a fresh
engine. -/
theorem noteOn_twice_single_voice_witness :
    (∃ note : ActiveNote,
      mapGet (noteOn (noteOn initialState 1 440 0).1 1 550 0).1.activeNotes 1 = some note ∧
      note.frequency = 550) ∧
    countKey (noteOn (noteOn initialState 1 440 0).1 1 550 0).1.activeNotes 1 = 1 ∧
    ((noteOn (noteOn initialState 1 440 0).1 1 550 0).2).filter AudioAction.isTeardown = [] :=
  noteOn_twice_single_voice initialState 1 0 0 440 550 (by decide)

/-- C4: under a non-drums preset, `noteOff` on an active voice leaves the
table untouched immediately and registers a teardown that fires exactly
`release * 1000 + 100` milliseconds after the call — no earlier than the
release time and no later than release time plus 100 ms — and whose body
removes the voice from the table. -/
theorem noteOff_schedules_timed_teardown (s : EngineState) (id : ℕ) (note : ActiveNote)
    (hinit : s.initialized = true)
    (hn : mapGet s.activeNotes id = some note)
    (hw : ¬ s.preset.waveform = Waveform.drums)
    (hk : countKey s.activeNotes id ≤ 1) :
    ∃ td : ScheduledTeardown,
      (noteOff s id).2.2 = some td ∧
      td.delayMs = s.preset.release * 1000 + 100 ∧
      s.preset.release * 1000 ≤ td.delayMs ∧
      td.delayMs ≤ s.preset.release * 1000 + 100 ∧
      (noteOff s id).1.activeNotes = s.activeNotes ∧
      mapGet (runTeardown (noteOff s id).1 td).1.activeNotes id = none := by
  have h := noteOff_eq_release s id note hinit hn hw
  refine ⟨{ delayMs := s.preset.release * 1000 + 100, noteId := id, note := note },
    ?_, rfl,
    by
      show s.preset.release * 1000 ≤ s.preset.release * 1000 + 100
      linarith,
    le_refl _, ?_, ?_⟩
  · rw [h]
  · rw [h]
  · rw [h]
    simpa [runTeardown] using mapGet_mapDelete_self s.activeNotes id hk

/-- C4 witness: `noteOff(7)` on the guitar voice of a fresh engine (release
0.8 s) schedules its teardown at `0.8 * 1000 + 100` ms. -/
theorem noteOff_schedules_timed_teardown_witness :
    ∃ td : ScheduledTeardown,
      (noteOff guitarVoiceState 7).2.2 = some td ∧
      td.delayMs = guitarVoiceState.preset.release * 1000 + 100 ∧
      guitarVoiceState.preset.release * 1000 ≤ td.delayMs ∧
      td.delayMs ≤ guitarVoiceState.preset.release * 1000 + 100 ∧
      (noteOff guitarVoiceState 7).1.activeNotes = guitarVoiceState.activeNotes ∧
      mapGet (runTeardown (noteOff guitarVoiceState 7).1 td).1.activeNotes 7 = none :=
  noteOff_schedules_timed_teardown guitarVoiceState 7 guitarVoice rfl rfl
    (by decide) (by decide)

/-- C5: `noteOff` and `noteUpdate` on an id with no table entry are silent
no-ops: no action is issued, no teardown scheduled, and the engine state is
returned unchanged. -/
theorem unknown_id_silent_noop (s : EngineState) (id : ℕ) (f mx my : ℚ)
    (h : mapGet s.activeNotes id = none) :
    noteOff s id = (s, [], none) ∧ noteUpdate s id f mx my = (s, []) := by
  constructor
  · unfold noteOff
    rw [h]
  · unfold noteUpdate
    rw [h]

/-- C5 witness: id 42 is unknown to a fresh engine. -/
theorem unknown_id_silent_noop_witness :
    noteOff initialState 42 = (initialState, [], none) ∧
    noteUpdate initialState 42 440 0 0 = (initialState, []) :=
  unknown_id_silent_noop initialState 42 440 0 0 rfl

/-- C6: under a drums preset, `noteOff` on an active voice removes it from
the table immediately, issues no gain-ramp action at all, and schedules no
teardown. -/
theorem noteOff_drums_immediate (s : EngineState) (id : ℕ) (note : ActiveNote)
    (hinit : s.initialized = true)
    (hn : mapGet s.activeNotes id = some note)
    (hw : s.preset.waveform = Waveform.drums)
    (hk : countKey s.activeNotes id ≤ 1) :
    mapGet (noteOff s id).1.activeNotes id = none ∧
    (noteOff s id).2.1 = [] ∧
    (noteOff s id).2.2 = none := by
  have h := noteOff_eq_drums s id note hinit hn hw
  rw [h]
  exact ⟨mapGet_mapDelete_self _ _ hk, rfl, rfl⟩

/-- C6 witness: a kick voice under the drums preset is removed at once by
`noteOff(7)` with no release ramp. -/
theorem noteOff_drums_immediate_witness :
    mapGet (noteOff drumsVoiceState 7).1.activeNotes 7 = none ∧
    (noteOff drumsVoiceState 7).2.1 = [] ∧
    (noteOff drumsVoiceState 7).2.2 = none :=
  noteOff_drums_immediate drumsVoiceState 7 drumVoice rfl rfl rfl (by decide)

/-- C7 counterexample: under a sine preset with detune 100 and vibrato depth
0.1, `noteOn(1, 440)` stores an oscillator at exactly 440 Hz with no vibrato
modulator — the preset's detune offset and vibrato are not applied. -/
theorem noteOn_no_vibrato_counterexample :
    sineVibState.preset.vibratoDepth ≠ 0 ∧
    sineVibState.preset.detune ≠ 0 ∧
    mapGet (noteOn sineVibState 1 440 0).1.activeNotes 1 =
      some { id := 1, frequency := 440,
             oscillator := Source.oscNode Waveform.sine 440, vibrato := none } :=
  ⟨by norm_num [sineVibState, sineVibPreset, defaultPreset],
   by norm_num [sineVibState, sineVibPreset, defaultPreset],
   rfl⟩

/-- C7 amended: for every tonal family (sine, square, sawtooth, triangle),
`noteOn` stores an oscillator set to exactly the requested frequency — the
preset's detune is not applied as an offset — and no vibrato generator is
created, whatever the vibrato depth. -/
theorem noteOn_tonal_exact_frequency (s : EngineState) (id row : ℕ) (f : ℚ)
    (hw : s.preset.waveform = Waveform.sine ∨ s.preset.waveform = Waveform.square ∨
          s.preset.waveform = Waveform.sawtooth ∨ s.preset.waveform = Waveform.triangle) :
    mapGet (noteOn s id f row).1.activeNotes id =
      some { id := id, frequency := f,
             oscillator := Source.oscNode s.preset.waveform f, vibrato := none } := by
  have hmg := noteOn_mapGet s id f row
  rw [init_preset, init_sampleRate] at hmg
  rw [hmg]
  rcases hw with h | h | h | h <;> simp [noteOnSource, h]

/-- C7 amended witness: concrete sine `noteOn(2, 660)`. -/
theorem noteOn_tonal_exact_frequency_witness :
    mapGet (noteOn sineVibState 2 660 0).1.activeNotes 2 =
      some { id := 2, frequency := 660,
             oscillator := Source.oscNode sineVibState.preset.waveform 660,
             vibrato := none } :=
  noteOn_tonal_exact_frequency sineVibState 2 0 660 (Or.inl rfl)

/-- C8 counterexample: with a recorder present, a decode failure leaves the
`stopRecording` promise pending forever — it does not resolve to null. -/
theorem stopRecording_decode_failure_counterexample :
    stopRecording true none = PromiseOutcome.pending ∧
    stopRecording true none ≠ PromiseOutcome.resolved none :=
  ⟨rfl, by decide⟩

/-- C8 amended: `stopRecording` resolves to null exactly when no recorder is
active; with a recorder, a decode failure leaves the promise pending forever
(the decode rejection escapes the `onstop` handler), and a Loop is produced
only when decoding succeeds, carrying the decoded buffer. -/
theorem stopRecording_outcomes (r : Bool) (d : Option AudioBuffer) :
    (stopRecording r d = PromiseOutcome.resolved none ↔ r = false) ∧
    (stopRecording true d = PromiseOutcome.pending ↔ d = none) ∧
    (∀ l : Loop, stopRecording r d = PromiseOutcome.resolved (some l) →
      r = true ∧ d = some l.buffer) := by
  refine ⟨?_, ?_, ?_⟩
  · cases r <;> cases d <;> simp [stopRecording]
  · cases d <;> simp [stopRecording]
  · intro l hl
    cases r <;> cases d <;> simp [stopRecording] at hl ⊢
    subst hl
    rfl

/-- C8 amended witness: recorder present, decode fails, promise pending. -/
theorem stopRecording_outcomes_witness :
    stopRecording true none = PromiseOutcome.pending :=
  (stopRecording_outcomes true none).2.1.mpr rfl

/-- C9: `noteUpdate` on a known id retargets the shared filter cutoff to
`min(18000, max(20, filterCutoff + modY * 4000))`: the raw value when it lies
in [20, 18000], else the violated bound. -/
theorem noteUpdate_filter_clamp (s : EngineState) (id : ℕ) (note : ActiveNote)
    (f mx my : ℚ)
    (hinit : s.initialized = true)
    (hn : mapGet s.activeNotes id = some note) :
    (noteUpdate s id f mx my).1.filterFreqTarget
        = min 18000 (max 20 (s.preset.filterCutoff + my * 4000)) ∧
    (20 ≤ s.preset.filterCutoff + my * 4000 → s.preset.filterCutoff + my * 4000 ≤ 18000 →
      (noteUpdate s id f mx my).1.filterFreqTarget = s.preset.filterCutoff + my * 4000) ∧
    (s.preset.filterCutoff + my * 4000 < 20 →
      (noteUpdate s id f mx my).1.filterFreqTarget = 20) ∧
    (18000 < s.preset.filterCutoff + my * 4000 →
      (noteUpdate s id f mx my).1.filterFreqTarget = 18000) := by
  have h := noteUpdate_eq s id note f mx my hinit hn
  have hbase : (noteUpdate s id f mx my).1.filterFreqTarget
      = min 18000 (max 20 (s.preset.filterCutoff + my * 4000)) := by rw [h]
  refine ⟨hbase, ?_, ?_, ?_⟩
  · intro h1 h2
    rw [hbase, max_eq_right h1, min_eq_right h2]
  · intro h1
    rw [hbase, max_eq_left h1.le, min_eq_right (by norm_num)]
  · intro h1
    rw [hbase, max_eq_right (le_trans (by norm_num) h1.le), min_eq_left h1.le]

/-- C9 witness: `noteUpdate(7, 880, 0, 1)` on the guitar voice retargets the
cutoff to `4000 + 1 * 4000`, which is inside [20, 18000]. -/
theorem noteUpdate_filter_clamp_witness :
    (noteUpdate guitarVoiceState 7 880 0 1).1.filterFreqTarget
      = guitarVoiceState.preset.filterCutoff + 1 * 4000 := by
  have hcut : guitarVoiceState.preset.filterCutoff = 4000 := rfl
  exact (noteUpdate_filter_clamp guitarVoiceState 7 guitarVoice 880 0 1 rfl rfl).2.1
    (by rw [hcut]; norm_num) (by rw [hcut]; norm_num)

/-- C10: `noteOff` dispatches on the preset family active at call time, not
the family the voice was created under: with drums active, EVERY active voice
— whatever its source (tonal oscillator, piano mix, string resonator) — has
its table entry deleted immediately, with no stop of its source, no
disconnect of its nodes and no gain ramp issued, and no teardown scheduled;
a still-running source created under the earlier preset is left connected
and sounding. -/
theorem noteOff_dispatches_on_current_preset (s : EngineState) (id : ℕ)
    (note : ActiveNote)
    (hinit : s.initialized = true)
    (hn : mapGet s.activeNotes id = some note)
    (hw : s.preset.waveform = Waveform.drums) :
    (noteOff s id).1.activeNotes = mapDelete s.activeNotes id ∧
    (noteOff s id).2.1 = [] ∧
    ((noteOff s id).2.1).filter AudioAction.isTeardown = [] ∧
    ((noteOff s id).2.1).filter AudioAction.isGainRamp = [] ∧
    (noteOff s id).2.2 = none := by
  have h := noteOff_eq_drums s id note hinit hn hw
  rw [h]
  exact ⟨rfl, rfl, rfl, rfl, rfl⟩

/-- C10 witness: the tonal sine-oscillator voice of id 3, created under the
sine preset, after switching the preset to drums via `updatePreset`: its
entry is deleted while the oscillator is neither stopped nor disconnected. -/
theorem noteOff_dispatches_on_current_preset_witness :
    (noteOff sineSwitchedState 3).1.activeNotes
        = mapDelete sineSwitchedState.activeNotes 3 ∧
    (noteOff sineSwitchedState 3).2.1 = [] ∧
    ((noteOff sineSwitchedState 3).2.1).filter AudioAction.isTeardown = [] ∧
    ((noteOff sineSwitchedState 3).2.1).filter AudioAction.isGainRamp = [] ∧
    (noteOff sineSwitchedState 3).2.2 = none :=
  noteOff_dispatches_on_current_preset sineSwitchedState 3 sineVoice rfl rfl rfl

end GeoShred

